import Mathlib

/-!
Verification of the docutalk conversation-turn core.

A shallow embedding of the conversation-turn orchestration pipeline of the
docutalk repository, together with proofs of the behavioural properties
claimed by its specification.  The embedding covers:

* the session store (`src/server/services/conversationManager.js`),
* the sequential tool executor (`src/server/utils/streamProcessor.js`),
* the synthesis-message builder (`src/server/services/tools/toolExecutor.js`),
* the chat-turn orchestrator (`src/server/routes/chat.js`, `router.post`),
* the stage-2 protocol bridge (`src/client/src/app/api/chat/route.ts`).

JavaScript machine state is modelled by explicit state passing: every method
that mutates the conversation manager takes the store and returns the updated
store.  `Date.now()` values are passed in as explicit `now : Nat` arguments.
External collaborators (the generative model streams, the retriever, tool
implementations) are inputs of the orchestrator model, exactly at the
interface boundary the specification draws.
-/

namespace Docutalk

/-! ## Session store (`conversationManager.js`) -/

/-- Client context is an opaque payload stored per session (the source stores
an arbitrary JS object and only forwards it). -/
abbrev ClientContext := String

/-- Message role: `HumanMessage` vs `AIMessage` in the source. -/
inductive Role where
  | user
  | assistant
deriving DecidableEq

/-- One chat message (`{ role, content }`). -/
structure Message where
  role : Role
  content : String
deriving DecidableEq

/-- One session entry: `{ history, lastAccessed, context }` in
`conversationManager.js`. -/
structure Session where
  messages : List Message
  lastAccessed : Nat
  context : Option ClientContext
deriving DecidableEq

/-- The state of the conversation manager: an insertion-ordered map of sessions
(`this.sessions : Map`) plus the windowing bound
(`this.maxMessagesPerSession`, default 10). -/
structure Store where
  sessions : List (String × Session)
  maxMessagesPerSession : Nat := 10
deriving DecidableEq

/-- Model of `this.sessions.get(sessionId)` (as an option). -/
def Store.find (st : Store) (sid : String) : Option Session :=
  (st.sessions.find? (fun p => p.1 == sid)).map (·.2)

/-- Model of `this.sessions.has(sessionId)`. -/
def Store.has (st : Store) (sid : String) : Bool :=
  (st.sessions.find? (fun p => p.1 == sid)).isSome

/-- Model of `this.sessions.set(sessionId, s)`: JS `Map.set` overwrites an existing
key in place and appends an unseen key at the end. -/
def Store.setSession (st : Store) (sid : String) (s : Session) : Store :=
  if st.has sid then
    { st with sessions := st.sessions.map (fun p => if p.1 == sid then (sid, s) else p) }
  else
    { st with sessions := st.sessions ++ [(sid, s)] }

/-- Model of `this.sessions.delete(sessionId)`. -/
def Store.delete (st : Store) (sid : String) : Store :=
  { st with sessions := st.sessions.filter (fun p => ¬ (p.1 == sid)) }

/-- Source `getOrCreateSession(sessionId)`: creates an empty session for an unseen
id, otherwise refreshes `lastAccessed`; returns the (current) history
alongside the updated store. -/
def getOrCreateSession (st : Store) (sid : String) (now : Nat) : Store × List Message :=
  match st.find sid with
  | none =>
      (st.setSession sid { messages := [], lastAccessed := now, context := none }, [])
  | some s =>
      (st.setSession sid { s with lastAccessed := now }, s.messages)

/-- Source `setSessionContext(sessionId, context)`: ensures the session exists, then
overwrites its context (last write wins). -/
def setSessionContext (st : Store) (sid : String) (ctx : ClientContext) (now : Nat) : Store :=
  match (getOrCreateSession st sid now).1.find sid with
  | some s => (getOrCreateSession st sid now).1.setSession sid { s with context := some ctx }
  | none => (getOrCreateSession st sid now).1

/-- Source `getSessionContext(sessionId)`: `const session = this.sessions.get(id);
return session ? session.context : null;` — a pure read, returned here in
state-passing style to make its frame condition explicit: the store it
returns is the store it was given. -/
def getSessionContext (st : Store) (sid : String) : Option ClientContext × Store :=
  (match st.find sid with
   | some s => s.context
   | none => none, st)

/-- The retained suffix of length (at most) `n`: `xs.slice(-n)` in JS. -/
def lastN (n : Nat) (xs : List α) : List α :=
  xs.drop (xs.length - n)

/-- Source `applyMessageWindowing(sessionId)`: if the history exceeds
`maxMessagesPerSession`, clear it and re-add only the most recent
`maxMessagesPerSession` messages. -/
def applyMessageWindowing (st : Store) (sid : String) : Store :=
  match st.find sid with
  | none => st
  | some s =>
      if s.messages.length > st.maxMessagesPerSession then
        st.setSession sid
          { s with messages := s.messages.drop (s.messages.length - st.maxMessagesPerSession) }
      else st

/-- The message built by `addMessage`: `new HumanMessage(content)` or
`new AIMessage(content)`. -/
def mkMessage (content : String) (isUser : Bool) : Message :=
  { role := if isUser then Role.user else Role.assistant, content := content }

/-- Source `history.addMessage(message)`: append one message to the fetched
history (a no-op on an absent session, which `addMessage` never hits
because it runs `getOrCreateSession` first). -/
def appendToHistory (st : Store) (sid : String) (m : Message) : Store :=
  match st.find sid with
  | some s => st.setSession sid { s with messages := s.messages ++ [m] }
  | none => st

/-- Source `addMessage(sessionId, content, isUser)`: get-or-create, append, then
apply windowing. -/
def addMessage (st : Store) (sid : String) (content : String) (isUser : Bool) (now : Nat) :
    Store :=
  applyMessageWindowing
    (appendToHistory (getOrCreateSession st sid now).1 sid (mkMessage content isUser)) sid

/-- Source `getMessages(sessionId, limit = null)`: get-or-create, then return the
history (optionally only its last `limit` entries; `limit` is a JS default
argument of `null`, and `0` is falsy). -/
def getMessages (st : Store) (sid : String) (limit : Option Nat) (now : Nat) :
    List Message × Store :=
  let (st', msgs) := getOrCreateSession st sid now
  match limit with
  | some l => if l ≠ 0 ∧ msgs.length > l then (msgs.drop (msgs.length - l), st') else (msgs, st')
  | none => (msgs, st')

/-- Source `clearSession(sessionId)`: delete the session if present; otherwise do
nothing. -/
def clearSession (st : Store) (sid : String) : Store :=
  if st.has sid then st.delete sid else st

/-- Iterated `addMessage`: the `N` appends in the lifetime of one session.  Each
entry is `(content, isUser, now)`. -/
def appendAll (st : Store) (sid : String) (cs : List (String × Bool × Nat)) : Store :=
  cs.foldl (fun s c => addMessage s sid c.1 c.2.1 c.2.2) st

/-! ### Store lemmas -/

theorem Store.find_isSome_iff_has (st : Store) (sid : String) :
    (st.find sid).isSome = st.has sid := by
  simp [Store.find, Store.has]

theorem findEntry_replace (l : List (String × Session)) (sid : String) (s : Session)
    (h : (l.find? (fun p => p.1 == sid)).isSome) :
    ((l.map (fun p => if p.1 == sid then (sid, s) else p)).find? (fun p => p.1 == sid)) =
      some (sid, s) := by
  induction l with
  | nil => simp at h
  | cons p t ih =>
      by_cases hp : p.1 = sid
      · simp [hp]
      · have hp' : (p.1 == sid) = false := by simp [hp]
        rw [List.find?_cons_of_neg _ (by simp [hp])] at h
        rw [List.map_cons]
        simp only [hp', Bool.false_eq_true, if_false]
        rw [List.find?_cons_of_neg _ (by simp [hp])]
        exact ih h

theorem findEntry_append_none (l : List (String × Session)) (sid : String) (s : Session)
    (h : l.find? (fun p => p.1 == sid) = none) :
    ((l ++ [(sid, s)]).find? (fun p => p.1 == sid)) = some (sid, s) := by
  induction l with
  | nil => simp
  | cons p t ih =>
      by_cases hp : p.1 = sid
      · rw [List.find?_cons_of_pos _ (by simp [hp])] at h
        exact absurd h (by simp)
      · rw [List.find?_cons_of_neg _ (by simp [hp])] at h
        rw [List.cons_append, List.find?_cons_of_neg _ (by simp [hp])]
        exact ih h

theorem find_setSession_self (st : Store) (sid : String) (s : Session) :
    (st.setSession sid s).find sid = some s := by
  by_cases h : st.has sid
  · have hr := findEntry_replace st.sessions sid s (by simpa [Store.has] using h)
    simp only [Store.setSession, h, if_true, Store.find]
    rw [hr]
    rfl
  · have hn : st.sessions.find? (fun p => p.1 == sid) = none :=
      Option.not_isSome_iff_eq_none.mp (by simpa [Store.has] using h)
    have ha := findEntry_append_none st.sessions sid s hn
    simp only [Store.setSession, h, Bool.false_eq_true, if_false, Store.find]
    rw [ha]
    rfl

theorem maxWindow_setSession (st : Store) (sid : String) (s : Session) :
    (st.setSession sid s).maxMessagesPerSession = st.maxMessagesPerSession := by
  unfold Store.setSession
  by_cases h : st.has sid <;> simp [h]

theorem find_delete_self (st : Store) (sid : String) :
    (st.delete sid).find sid = none := by
  unfold Store.delete Store.find
  have : (st.sessions.filter (fun p => ¬ (p.1 == sid))).find? (fun p => p.1 == sid) = none := by
    induction st.sessions with
    | nil => simp
    | cons p t ih =>
        by_cases hp : p.1 = sid
        · simp [List.filter, hp, ih]
        · have hp' : (p.1 == sid) = false := by simp [hp]
          simp [List.filter, hp', List.find?, ih]
  simp [this]

theorem has_delete_self (st : Store) (sid : String) :
    (st.delete sid).has sid = false := by
  have h1 := find_delete_self st sid
  have h2 := Store.find_isSome_iff_has (st.delete sid) sid
  rw [h1] at h2
  exact h2.symm

/-! ### Windowing arithmetic -/

theorem length_lastN (n : Nat) (xs : List α) : (lastN n xs).length = min xs.length n := by
  simp only [lastN, List.length_drop]
  omega

theorem lastN_of_le (n : Nat) (xs : List α) (h : xs.length ≤ n) : lastN n xs = xs := by
  simp [lastN, Nat.sub_eq_zero_of_le h]

theorem lastN_append_singleton (n : Nat) (xs : List α) (a : α) :
    lastN n (lastN n xs ++ [a]) = lastN n (xs ++ [a]) := by
  unfold lastN
  have hk : xs.length - n ≤ xs.length := Nat.sub_le _ _
  rw [← List.drop_append_of_le_length hk, List.drop_drop, List.length_append,
    List.length_drop, List.length_append]
  congr 1
  simp only [List.length_singleton]
  omega

theorem windowFold (W : Nat) (ms : List Message) : ∀ acc : List Message,
    List.foldl (fun a m => lastN W (a ++ [m])) (lastN W acc) ms = lastN W (acc ++ ms) := by
  induction ms with
  | nil => intro acc; simp
  | cons m ms ih =>
      intro acc
      rw [List.foldl_cons, lastN_append_singleton]
      have := ih (acc ++ [m])
      rw [List.append_assoc] at this
      simpa using this

/-! ### The effect of `addMessage` on one session -/

/-- The message list currently held for `sid` (empty when the session does
not exist). -/
def msgsOf (st : Store) (sid : String) : List Message :=
  ((st.find sid).map Session.messages).getD []

/-- The most recently retained message of a session. -/
def lastMessage (st : Store) (sid : String) : Option Message :=
  (msgsOf st sid).getLast?

theorem maxWindow_applyMessageWindowing (st : Store) (sid : String) :
    (applyMessageWindowing st sid).maxMessagesPerSession = st.maxMessagesPerSession := by
  unfold applyMessageWindowing
  cases h : st.find sid with
  | none => rfl
  | some s =>
      by_cases hc : s.messages.length > st.maxMessagesPerSession
      · simp [hc, maxWindow_setSession]
      · simp [hc]

theorem maxWindow_getOrCreateSession (st : Store) (sid : String) (now : Nat) :
    (getOrCreateSession st sid now).1.maxMessagesPerSession = st.maxMessagesPerSession := by
  unfold getOrCreateSession
  cases h : st.find sid <;> simp [maxWindow_setSession]

theorem maxWindow_appendToHistory (st : Store) (sid : String) (m : Message) :
    (appendToHistory st sid m).maxMessagesPerSession = st.maxMessagesPerSession := by
  unfold appendToHistory
  cases h : st.find sid with
  | none => rfl
  | some s => simp [maxWindow_setSession]

theorem maxWindow_addMessage (st : Store) (sid : String) (c : String) (u : Bool) (now : Nat) :
    (addMessage st sid c u now).maxMessagesPerSession = st.maxMessagesPerSession := by
  unfold addMessage
  rw [maxWindow_applyMessageWindowing, maxWindow_appendToHistory, maxWindow_getOrCreateSession]

theorem maxWindow_setSessionContext (st : Store) (sid : String) (ctx : ClientContext) (now : Nat) :
    (setSessionContext st sid ctx now).maxMessagesPerSession = st.maxMessagesPerSession := by
  unfold setSessionContext
  cases h : ((getOrCreateSession st sid now).1).find sid with
  | none => exact maxWindow_getOrCreateSession st sid now
  | some s => rw [maxWindow_setSession, maxWindow_getOrCreateSession]

theorem msgsOf_applyMessageWindowing (st : Store) (sid : String) (s : Session)
    (h : st.find sid = some s) :
    msgsOf (applyMessageWindowing st sid) sid = lastN st.maxMessagesPerSession s.messages := by
  unfold applyMessageWindowing
  rw [h]
  by_cases hc : s.messages.length > st.maxMessagesPerSession
  · simp only [hc, if_true, msgsOf, find_setSession_self]
    rfl
  · simp only [hc, if_false, msgsOf, h]
    exact (lastN_of_le _ _ (Nat.le_of_not_lt hc)).symm

theorem find_appendToHistory (st : Store) (sid : String) (s : Session) (m : Message)
    (h : st.find sid = some s) :
    (appendToHistory st sid m).find sid = some { s with messages := s.messages ++ [m] } := by
  unfold appendToHistory
  rw [h]
  exact find_setSession_self _ _ _

theorem find_getOrCreateSession_self (st : Store) (sid : String) (now : Nat) :
    (getOrCreateSession st sid now).1.find sid =
      some (match st.find sid with
            | none => { messages := [], lastAccessed := now, context := none }
            | some s => { s with lastAccessed := now }) := by
  unfold getOrCreateSession
  cases h : st.find sid with
  | none => exact find_setSession_self _ _ _
  | some s => exact find_setSession_self _ _ _

theorem msgsOf_addMessage (st : Store) (sid : String) (c : String) (u : Bool) (now : Nat) :
    msgsOf (addMessage st sid c u now) sid =
      lastN st.maxMessagesPerSession (msgsOf st sid ++ [mkMessage c u]) := by
  unfold addMessage
  have h2 := find_getOrCreateSession_self st sid now
  cases h : st.find sid with
  | none =>
      rw [h] at h2
      have h3 := find_appendToHistory _ sid _ (mkMessage c u) h2
      have hw := msgsOf_applyMessageWindowing _ sid _ h3
      rw [hw, maxWindow_appendToHistory, maxWindow_getOrCreateSession]
      simp [msgsOf, h]
  | some s =>
      rw [h] at h2
      have h3 := find_appendToHistory _ sid _ (mkMessage c u) h2
      have hw := msgsOf_applyMessageWindowing _ sid _ h3
      rw [hw, maxWindow_appendToHistory, maxWindow_getOrCreateSession]
      simp [msgsOf, h]

theorem msgsOf_appendAll (sid : String) (cs : List (String × Bool × Nat)) : ∀ st : Store,
    msgsOf (appendAll st sid cs) sid =
      List.foldl (fun a c => lastN st.maxMessagesPerSession (a ++ [mkMessage c.1 c.2.1]))
        (msgsOf st sid) cs := by
  induction cs with
  | nil => intro st; simp [appendAll]
  | cons c cs ih =>
      intro st
      have hstep : appendAll st sid (c :: cs) = appendAll (addMessage st sid c.1 c.2.1 c.2.2) sid cs := by
        simp [appendAll]
      rw [hstep, ih, msgsOf_addMessage, List.foldl_cons, maxWindow_addMessage]

/-! ### Claims about the session store -/

/-- Claim C5.  Session windowing: starting from a session the store has not
seen, after the `N` appends in `cs` the retained message list is exactly the
last `W` appended messages in append order (`W` being the windowing
bound), its length is `min N W`, and the bound `length ≤ W` holds after every
prefix of the appends, i.e. after every mutation. -/
theorem session_windowing (st : Store) (sid : String) (cs : List (String × Bool × Nat))
    (hfresh : st.find sid = none) :
    msgsOf (appendAll st sid cs) sid =
        lastN st.maxMessagesPerSession (cs.map (fun c => mkMessage c.1 c.2.1)) ∧
    (msgsOf (appendAll st sid cs) sid).length = min cs.length st.maxMessagesPerSession ∧
    ∀ k : Nat, (msgsOf (appendAll st sid (cs.take k)) sid).length ≤ st.maxMessagesPerSession := by
  have hgen : ∀ ds : List (String × Bool × Nat),
      msgsOf (appendAll st sid ds) sid =
        lastN st.maxMessagesPerSession (ds.map (fun c => mkMessage c.1 c.2.1)) := by
    intro ds
    have hfold := msgsOf_appendAll sid ds st
    have hempty : msgsOf st sid = [] := by simp [msgsOf, hfresh]
    rw [hempty] at hfold
    rw [hfold]
    rw [show List.foldl
          (fun a c => lastN st.maxMessagesPerSession (a ++ [mkMessage c.1 c.2.1]))
          ([] : List Message) ds =
        List.foldl (fun a m => lastN st.maxMessagesPerSession (a ++ [m])) []
          (ds.map (fun c => mkMessage c.1 c.2.1)) from
      (List.foldl_map (fun c => mkMessage c.1 c.2.1)
        (fun a m => lastN st.maxMessagesPerSession (a ++ [m])) ds ([] : List Message)).symm]
    have h3 := windowFold st.maxMessagesPerSession (ds.map (fun c => mkMessage c.1 c.2.1)) []
    simpa [lastN] using h3
  refine ⟨hgen cs, ?_, ?_⟩
  · rw [hgen cs, length_lastN, List.length_map]
  · intro k
    rw [hgen (cs.take k), length_lastN]
    exact Nat.min_le_right _ _

theorem session_windowing_witness :
    (Store.mk [] 2).find "s" = none ∧
    (msgsOf (appendAll (Store.mk [] 2) "s" [("a", true, 0), ("b", false, 1), ("c", true, 2)]) "s" =
        lastN (Store.mk [] 2).maxMessagesPerSession
          ([("a", true, 0), ("b", false, 1), ("c", true, 2)].map (fun c => mkMessage c.1 c.2.1)) ∧
    (msgsOf (appendAll (Store.mk [] 2) "s" [("a", true, 0), ("b", false, 1), ("c", true, 2)]) "s").length =
        min [("a", true, 0), ("b", false, 1), ("c", true, 2)].length
          (Store.mk [] 2).maxMessagesPerSession ∧
    ∀ k : Nat,
      (msgsOf (appendAll (Store.mk [] 2) "s"
          ([("a", true, 0), ("b", false, 1), ("c", true, 2)].take k)) "s").length ≤
        (Store.mk [] 2).maxMessagesPerSession) :=
  ⟨rfl, session_windowing (Store.mk [] 2) "s" [("a", true, 0), ("b", false, 1), ("c", true, 2)] rfl⟩

/-- Claim C9.  Clearing a session is idempotent: a second `clearSession` in a
row leaves the store exactly as one call does, and clearing an id the store
has never seen is a no-op (and, the model being total, never an error). -/
theorem clearSession_idempotent (st : Store) (sid : String) :
    clearSession (clearSession st sid) sid = clearSession st sid ∧
    (st.has sid = false → clearSession st sid = st) := by
  constructor
  · by_cases h : st.has sid
    · have h1 : clearSession st sid = st.delete sid := by simp [clearSession, h]
      rw [h1]
      simp [clearSession, has_delete_self st sid]
    · simp [clearSession, h]
  · intro h
    simp [clearSession, h]

theorem clearSession_idempotent_witness :
    (clearSession (clearSession (Store.mk [("s", ⟨[], 0, none⟩)] 10) "s") "s" =
        clearSession (Store.mk [("s", ⟨[], 0, none⟩)] 10) "s") ∧
    clearSession (Store.mk [] 10) "x" = Store.mk [] 10 :=
  ⟨(clearSession_idempotent (Store.mk [("s", ⟨[], 0, none⟩)] 10) "s").1,
   (clearSession_idempotent (Store.mk [] 10) "x").2 rfl⟩

/-- Claim C10.  Reading the client context of a session for an unseen id returns
`null` and leaves the store untouched (no session is created and no
`lastAccessed` is written), whereas `getMessages` and `getOrCreateSession`
on the same unseen id create an empty session as a side effect. -/
theorem getSessionContext_frame (st : Store) (sid : String) (now : Nat)
    (h : st.find sid = none) :
    getSessionContext st sid = (none, st) ∧
    (getOrCreateSession st sid now).1.find sid =
      some { messages := [], lastAccessed := now, context := none } ∧
    (getMessages st sid none now).1 = [] ∧
    (getMessages st sid none now).2.find sid =
      some { messages := [], lastAccessed := now, context := none } := by
  have hg : getMessages st sid none now =
      ((getOrCreateSession st sid now).2, (getOrCreateSession st sid now).1) := by
    rcases hq : getOrCreateSession st sid now with ⟨a, b⟩
    simp [getMessages, hq]
  have hcreate := find_getOrCreateSession_self st sid now
  rw [h] at hcreate
  refine ⟨?_, hcreate, ?_, ?_⟩
  · simp [getSessionContext, h]
  · rw [hg]
    unfold getOrCreateSession
    rw [h]
  · rw [hg]
    exact hcreate

theorem getSessionContext_frame_witness :
    (Store.mk [] 10).find "s" = none ∧
    (getSessionContext (Store.mk [] 10) "s" = (none, Store.mk [] 10) ∧
    (getOrCreateSession (Store.mk [] 10) "s" 5).1.find "s" =
      some { messages := [], lastAccessed := 5, context := none } ∧
    (getMessages (Store.mk [] 10) "s" none 5).1 = [] ∧
    (getMessages (Store.mk [] 10) "s" none 5).2.find "s" =
      some { messages := [], lastAccessed := 5, context := none }) :=
  ⟨rfl, getSessionContext_frame (Store.mk [] 10) "s" 5 rfl⟩


/-! ## Turn events (the internal event vocabulary of §3, `TurnEvent`) -/

/-- The tagged union of events the orchestrator places on the wire
(`sendSSEEvent` event types in `chat.js`). -/
inductive TurnEvent where
  | token (content : String)
  | tool_executing (tools : List String)
  | tool_result (tool : String) (result : String)
  | tool_error (tool : String) (err : String)
  | session (sessionId : String)
  | error (message : String)
  | done
deriving DecidableEq

/-- Is this one of the tool-phase events? -/
def TurnEvent.isToolish : TurnEvent → Bool
  | .tool_executing _ => true
  | .tool_result _ _ => true
  | .tool_error _ _ => true
  | _ => false

/-- Is this a `tool_executing` event? -/
def TurnEvent.isToolExec : TurnEvent → Bool
  | .tool_executing _ => true
  | _ => false

/-- Is this an `error` event? -/
def TurnEvent.isErrorEvent : TurnEvent → Bool
  | .error _ => true
  | _ => false

/-! ## Tool invoker (`streamProcessor.js` / `toolExecutor.js`) -/

/-- A tool-call request accumulated from the first-pass stream
(`accumulated.tool_calls[i]`): `{ id, name, args }`.  `id` is optional
because `buildToolMessages` guards it with `call.id ?? ...`. -/
structure ToolCall where
  id : Option String
  name : String
  args : String
deriving DecidableEq

/-- A registered tool: a name plus an implementation that may throw
(modelled with `Except`).  The implementation receives the raw args plus the
ambient `_clientContext` merged in by `executeToolCallsWithSSE`. -/
structure Tool where
  name : String
  run : String → Option ClientContext → Except String String

/-- The result objects pushed by the executors.  `executeToolCallsWithSSE`
pushes `{ name, result }`; `buildToolMessages` additionally reads an
optional `error` field (present only on results of the non-SSE
`executeToolCalls`). -/
structure RawToolResult where
  name : String
  result : Option String := none
  error : Option String := none
deriving DecidableEq

/-- Source `executeToolCallsWithSSE(toolCalls, tools, res, sessionId)`:
sequentially, for each call — look the tool up by name; if absent, emit a
`tool_error` event and continue; otherwise invoke it with the client context
merged in; on success emit `tool_result` and push `{ name, result }`; on a
throw emit `tool_error` and continue (pushing nothing). -/
def executeToolCallsWithSSE (toolCalls : List ToolCall) (tools : List Tool)
    (clientContext : Option ClientContext) : List TurnEvent × List RawToolResult :=
  match toolCalls with
  | [] => ([], [])
  | tc :: rest =>
      let tail := executeToolCallsWithSSE rest tools clientContext
      match tools.find? (fun t => t.name == tc.name) with
      | none =>
          (TurnEvent.tool_error tc.name ("Tool \x27" ++ tc.name ++ "\x27 not found") :: tail.1,
           tail.2)
      | some t =>
          match t.run tc.args clientContext with
          | .ok r =>
              (TurnEvent.tool_result tc.name r :: tail.1,
               { name := tc.name, result := some r, error := none } :: tail.2)
          | .error e =>
              (TurnEvent.tool_error tc.name e :: tail.1, tail.2)

/-- The single event `executeToolCallsWithSSE` emits for one call. -/
def toolCallEvent (tools : List Tool) (clientContext : Option ClientContext)
    (tc : ToolCall) : TurnEvent :=
  match tools.find? (fun t => t.name == tc.name) with
  | none => TurnEvent.tool_error tc.name ("Tool \x27" ++ tc.name ++ "\x27 not found")
  | some t =>
      match t.run tc.args clientContext with
      | .ok r => TurnEvent.tool_result tc.name r
      | .error e => TurnEvent.tool_error tc.name e

/-- The result entry `executeToolCallsWithSSE` pushes for one call —
`none` whenever the call fails (unknown tool or thrown error). -/
def toolCallResult (tools : List Tool) (clientContext : Option ClientContext)
    (tc : ToolCall) : Option RawToolResult :=
  match tools.find? (fun t => t.name == tc.name) with
  | none => none
  | some t =>
      match t.run tc.args clientContext with
      | .ok r => some { name := tc.name, result := some r, error := none }
      | .error _ => none

theorem executeToolCallsWithSSE_eq (toolCalls : List ToolCall) (tools : List Tool)
    (cc : Option ClientContext) :
    executeToolCallsWithSSE toolCalls tools cc =
      (toolCalls.map (toolCallEvent tools cc), toolCalls.filterMap (toolCallResult tools cc)) := by
  induction toolCalls with
  | nil => rfl
  | cons tc rest ih =>
      unfold executeToolCallsWithSSE
      rw [ih]
      unfold toolCallEvent toolCallResult
      cases hf : tools.find? (fun t => t.name == tc.name) with
      | none => simp [hf]
      | some t =>
          cases hr : t.run tc.args cc with
          | ok r => simp [hf, hr]
          | error e => simp [hf, hr]

theorem isToolExec_toolCallEvent (tools : List Tool) (cc : Option ClientContext) (tc : ToolCall) :
    (toolCallEvent tools cc tc).isToolExec = false := by
  unfold toolCallEvent
  cases hf : tools.find? (fun t => t.name == tc.name) with
  | none => rfl
  | some t =>
      cases hr : t.run tc.args cc with
      | ok r => simp [hr, TurnEvent.isToolExec]
      | error e => simp [hr, TurnEvent.isToolExec]

theorem isToolish_toolCallEvent (tools : List Tool) (cc : Option ClientContext) (tc : ToolCall) :
    (toolCallEvent tools cc tc).isToolish = true := by
  unfold toolCallEvent
  cases hf : tools.find? (fun t => t.name == tc.name) with
  | none => rfl
  | some t =>
      cases hr : t.run tc.args cc with
      | ok r => simp [hr, TurnEvent.isToolish]
      | error e => simp [hr, TurnEvent.isToolish]

/-- Claim C3 (as corrected).  Tool-call failures are isolated: executing a
request list yields exactly one event per call in request order — never
aborting the remaining calls — and a failing call (unknown tool, or a thrown
implementation error) yields a `tool_error` event carrying the error text.
Contrary to the original claim, a failing call contributes no `ToolResult`
at all: the result list holds only entries for the successful calls. -/
theorem tool_failure_isolation (cs : List ToolCall) (tools : List Tool)
    (cc : Option ClientContext) :
    (executeToolCallsWithSSE cs tools cc).1 = cs.map (toolCallEvent tools cc) ∧
    (executeToolCallsWithSSE cs tools cc).2 = cs.filterMap (toolCallResult tools cc) ∧
    (∀ tc : ToolCall, tools.find? (fun t => t.name == tc.name) = none →
      toolCallEvent tools cc tc =
        TurnEvent.tool_error tc.name ("Tool \x27" ++ tc.name ++ "\x27 not found") ∧
      toolCallResult tools cc tc = none) ∧
    (∀ (tc : ToolCall) (t : Tool) (e : String),
      tools.find? (fun u => u.name == tc.name) = some t →
      t.run tc.args cc = Except.error e →
      toolCallEvent tools cc tc = TurnEvent.tool_error tc.name e ∧
      toolCallResult tools cc tc = none) := by
  refine ⟨?_, ?_, ?_, ?_⟩
  · rw [executeToolCallsWithSSE_eq]
  · rw [executeToolCallsWithSSE_eq]
  · intro tc hf
    constructor
    · simp [toolCallEvent, hf]
    · simp [toolCallResult, hf]
  · intro tc t e hf hr
    constructor
    · simp [toolCallEvent, hf, hr]
    · simp [toolCallResult, hf, hr]

/-- A sample tool that echoes its arguments. -/
def echoTool : Tool := { name := "echo", run := fun a _ => Except.ok a }

/-- A sample tool whose implementation always throws. -/
def throwTool : Tool := { name := "boom", run := fun _ _ => Except.error "kaput" }

theorem tool_failure_isolation_witness :
    (executeToolCallsWithSSE
        [⟨some "A", "missing", "x"⟩, ⟨some "B", "boom", "y"⟩] [throwTool] none).1 =
      [⟨some "A", "missing", "x"⟩, ⟨some "B", "boom", "y"⟩].map
        (toolCallEvent [throwTool] none) ∧
    (toolCallEvent [throwTool] none ⟨some "A", "missing", "x"⟩ =
        TurnEvent.tool_error "missing" ("Tool \x27" ++ "missing" ++ "\x27 not found") ∧
      toolCallResult [throwTool] none ⟨some "A", "missing", "x"⟩ = none) ∧
    (toolCallEvent [throwTool] none ⟨some "B", "boom", "y"⟩ =
        TurnEvent.tool_error "boom" "kaput" ∧
      toolCallResult [throwTool] none ⟨some "B", "boom", "y"⟩ = none) :=
  ⟨(tool_failure_isolation [⟨some "A", "missing", "x"⟩, ⟨some "B", "boom", "y"⟩]
      [throwTool] none).1,
   (tool_failure_isolation [⟨some "A", "missing", "x"⟩, ⟨some "B", "boom", "y"⟩]
      [throwTool] none).2.2.1 ⟨some "A", "missing", "x"⟩ rfl,
   (tool_failure_isolation [⟨some "A", "missing", "x"⟩, ⟨some "B", "boom", "y"⟩]
      [throwTool] none).2.2.2 ⟨some "B", "boom", "y"⟩ throwTool "kaput" rfl rfl⟩

/-- Claim C3, counterexample to the original wording: the first call fails
(no tool named "missing" is registered), and while it does produce a
`tool_error` event and the second call still runs, the result
list of the executor contains no `ToolResult` for it — only the
entry of the successful second call — where the claim demands a `ToolResult` carrying the error text for
every failed invocation. -/
theorem tool_failure_produces_no_result :
    executeToolCallsWithSSE
        [⟨some "A", "missing", "x"⟩, ⟨some "C", "echo", "z"⟩] [echoTool] none =
      ([TurnEvent.tool_error "missing" ("Tool \x27" ++ "missing" ++ "\x27 not found"),
        TurnEvent.tool_result "echo" "z"],
       [{ name := "echo", result := some "z", error := none }]) := rfl

/-! ## Synthesis input (`toolExecutor.js` `buildToolMessages`, `chat.js` lines 96–104) -/

/-- The content string of one synthetic tool turn, from the source ternary
at line 12 of `toolExecutor.js`: when `result.error` is truthy the content is
the error rendered as an Error-prefixed string, otherwise the result
coerced to a string with empty-string fallback.  (An empty-string `error`
is falsy in JS, hence the inner guard.) -/
def rawContent (r : RawToolResult) : String :=
  match r.error with
  | some e => if e == "" then r.result.getD "" else "Error: " ++ e
  | none => r.result.getD ""

/-- A LangChain `ToolMessage`: `{ content, tool_call_id, name }`. -/
structure ToolMessage where
  content : String
  tool_call_id : String
  name : String
deriving DecidableEq

/-- Source `buildToolMessages(toolResults, toolCalls)`: one `ToolMessage` per
result, keyed by `(toolCalls[idx] || {}).id ?? `call_${idx}``. -/
def buildToolMessages (toolResults : List RawToolResult) (toolCalls : List ToolCall) :
    List ToolMessage :=
  toolResults.enum.map fun p =>
    { content := rawContent p.2,
      tool_call_id := ((toolCalls[p.1]?).bind ToolCall.id).getD ("call_" ++ toString p.1),
      name := p.2.name }

/-- The message kinds of the synthesis prompt (`SystemMessage`,
`HumanMessage`, `AIMessage` with tool calls, `ToolMessage`). -/
inductive ChatMessage where
  | system (content : String)
  | human (content : String)
  | ai (content : String) (tool_calls : List ToolCall)
  | tool (msg : ToolMessage)
deriving DecidableEq

/-- A history `Message` re-sent to the model keeps its role. -/
def historyMessage (m : Message) : ChatMessage :=
  match m.role with
  | Role.user => ChatMessage.human m.content
  | Role.assistant => ChatMessage.ai m.content []

/-- The synthesis system prompt built at `chat.js` line 97–99. -/
def synthesisSystemPrompt (ragContext : String) : String :=
  "You are a helpful assistant. Use the tool results and document context below to answer the user\x27s question naturally and completely.\n\nDocument context:\n"
    ++ ragContext

/-- The synthesis-pass input (`synthesisMessages` at `chat.js` lines 96–104):
system prompt, prior history, the user message, a placeholder assistant turn
carrying the tool-call requests, then one synthetic tool turn per result. -/
def synthesisMessages (ragContext : String) (chatHistory : List Message) (message : String)
    (toolCalls : List ToolCall) (toolResults : List RawToolResult) : List ChatMessage :=
  ChatMessage.system (synthesisSystemPrompt ragContext)
    :: chatHistory.map historyMessage
    ++ [ChatMessage.human message, ChatMessage.ai "" toolCalls]
    ++ (buildToolMessages toolResults toolCalls).map ChatMessage.tool

/-- Select the synthetic tool turns of a synthesis input. -/
def chatToolTurn : ChatMessage → Option ToolMessage
  | ChatMessage.tool m => some m
  | _ => none

theorem chatToolTurn_historyMessage (m : Message) : chatToolTurn (historyMessage m) = none := by
  unfold historyMessage
  cases m.role <;> rfl

theorem filterMap_chatToolTurn_historyMap (ch : List Message) :
    List.filterMap (chatToolTurn ∘ historyMessage) ch = [] := by
  induction ch with
  | nil => rfl
  | cons m t ih =>
      rw [List.filterMap_cons]
      have hm : (chatToolTurn ∘ historyMessage) m = none := chatToolTurn_historyMessage m
      rw [hm]
      exact ih

theorem filterMap_chatToolTurn_toolMap (ms : List ToolMessage) :
    List.filterMap (chatToolTurn ∘ ChatMessage.tool) ms = ms := by
  induction ms with
  | nil => rfl
  | cons m t ih =>
      rw [List.filterMap_cons]
      have hm : (chatToolTurn ∘ ChatMessage.tool) m = some m := rfl
      rw [hm, ih]

/-- Claim C4 (as corrected).  The synthesis input carries exactly one
synthetic tool turn per `ToolResult`, in order; the turn at index `i` is
keyed by the id of the tool-call request at the same index `i` of the
request list (falling back to `call_<i>`) — positional keying, not the id
of the request the result answers — and a result carrying a (non-empty)
error string is rendered as `"Error: <message>"`. -/
theorem synthesis_tool_turns (ragContext : String) (chatHistory : List Message)
    (message : String) (cs : List ToolCall) (rs : List RawToolResult) :
    (synthesisMessages ragContext chatHistory message cs rs).filterMap chatToolTurn =
        buildToolMessages rs cs ∧
    (buildToolMessages rs cs).length = rs.length ∧
    (∀ (i : Nat) (r : RawToolResult), rs[i]? = some r →
      (buildToolMessages rs cs)[i]? =
        some { content := rawContent r,
               tool_call_id := ((cs[i]?).bind ToolCall.id).getD ("call_" ++ toString i),
               name := r.name }) ∧
    (∀ (r : RawToolResult) (e : String), r.error = some e → (e == "") = false →
      rawContent r = "Error: " ++ e) := by
  refine ⟨?_, ?_, ?_, ?_⟩
  · simp [synthesisMessages, List.filterMap_append, List.filterMap_cons,
      filterMap_chatToolTurn_historyMap, filterMap_chatToolTurn_toolMap, chatToolTurn]
  · unfold buildToolMessages
    rw [List.length_map, List.enum_length]
  · intro i r hi
    unfold buildToolMessages
    rw [List.getElem?_map, List.getElem?_enum, hi]
    rfl
  · intro r e he hne
    simp [rawContent, he, hne]

theorem synthesis_tool_turns_witness :
    ((synthesisMessages "ctx" [] "q" [⟨some "B", "echo", "z"⟩]
        [⟨"echo", some "out", none⟩]).filterMap chatToolTurn =
      buildToolMessages [⟨"echo", some "out", none⟩] [⟨some "B", "echo", "z"⟩]) ∧
    (buildToolMessages [⟨"echo", some "out", none⟩] [⟨some "B", "echo", "z"⟩])[0]? =
      some { content := rawContent ⟨"echo", some "out", none⟩,
             tool_call_id :=
               ((([⟨some "B", "echo", "z"⟩] : List ToolCall)[0]?).bind ToolCall.id).getD
                 ("call_" ++ toString 0),
             name := "echo" } ∧
    rawContent ⟨"fail", none, some "bad"⟩ = "Error: " ++ "bad" :=
  ⟨(synthesis_tool_turns "ctx" [] "q" [⟨some "B", "echo", "z"⟩]
      [⟨"echo", some "out", none⟩]).1,
   (synthesis_tool_turns "ctx" [] "q" [⟨some "B", "echo", "z"⟩]
      [⟨"echo", some "out", none⟩]).2.2.1 0 ⟨"echo", some "out", none⟩ rfl,
   (synthesis_tool_turns "ctx" [] "q" [] [⟨"fail", none, some "bad"⟩]).2.2.2
      ⟨"fail", none, some "bad"⟩ "bad" rfl rfl⟩

/-- Claim C4, counterexample to the original wording: two calls are
requested — the first (id "A", name "missing") fails, the second (id "B",
name "echo") succeeds — so the executor returns a single `ToolResult`,
answering the call named "echo" whose id is "B".  The synthetic turn built
for that result is nevertheless keyed "A" (the id at the index of the result in
the request list): the turn is not keyed by the id of the tool-call request
it answers. -/
theorem synthesis_key_misalignment :
    buildToolMessages
        (executeToolCallsWithSSE
          [⟨some "A", "missing", "x"⟩, ⟨some "B", "echo", "z"⟩] [echoTool] none).2
        [⟨some "A", "missing", "x"⟩, ⟨some "B", "echo", "z"⟩] =
      [{ content := "z", tool_call_id := "A", name := "echo" }] ∧
    ((([⟨some "A", "missing", "x"⟩, ⟨some "B", "echo", "z"⟩] : List ToolCall).find?
        (fun c => c.name == "echo")).bind ToolCall.id) = some "B" :=
  ⟨rfl, rfl⟩

/-! ## Turn orchestrator (`chat.js`, `router.post`) -/

/-- What the first-pass generation stream delivered: the text content of
each streamed chunk (in arrival order; `extractChunkContent` per chunk), the
tool calls of the accumulated message once the stream ended
(`accumulated.tool_calls`, merged by the streaming library), and — when the
retrieval/generation call or the stream iteration throws — the error raised
after those chunks. -/
structure FirstPassOutcome where
  chunks : List String
  toolCalls : List ToolCall
  failure : Option String := none

/-- What the synthesis-pass stream delivered (string chunk contents, plus an
optional error thrown after them; a failure of the synthesis-time retrieval
call is carried by `TurnEnv.synthRetrieval` instead). -/
structure SynthesisOutcome where
  chunks : List String
  failure : Option String := none

/-- The external collaborators of one turn: the tool registry and the
outcomes of the external streaming/retrieval calls. -/
structure TurnEnv where
  tools : List Tool
  firstPass : FirstPassOutcome
  synthRetrieval : Except String String
  synth : SynthesisOutcome

/-- Lines 38–45 of `chat.js`: store the client context when one was sent. -/
def storeAfterContext (st : Store) (sid : String) (context : Option ClientContext)
    (now : Nat) : Store :=
  match context with
  | some c => setSessionContext st sid c now
  | none => st

/-- Lines 38–54 of `chat.js`, up to the first-pass generation call: store the
context, load the history snapshot (pre-append), and append the user
message.  Returns `(chatHistory, store)`. -/
def chatTurnPre (st : Store) (message sessionId : String) (context : Option ClientContext)
    (now : Nat) : List Message × Store :=
  ((getMessages (storeAfterContext st sessionId context now) sessionId none now).1,
   addMessage (getMessages (storeAfterContext st sessionId context now) sessionId none now).2
     sessionId message true now)

/-- Lines 47–135 of `chat.js` (the `try`/`catch` body): one full conversation
turn.  Returns the emitted events, in emission order, and the final store.
Branching mirrors the source: a first-pass throw reaches the `catch` (one
`error` event, nothing further persisted); ≥1 accumulated tool call emits
`tool_executing` then runs the executor; a non-empty result list triggers
the synthesis pass whose streamed text becomes the persisted answer;
otherwise the accumulated first-pass text is persisted. -/
def chatTurn (st : Store) (env : TurnEnv) (message sessionId : String)
    (context : Option ClientContext) (now : Nat) : List TurnEvent × Store :=
  let chatHistory := (chatTurnPre st message sessionId context now).1
  let st1 := (chatTurnPre st message sessionId context now).2
  let textParts := env.firstPass.chunks.filter (fun s => s != "")
  let evTok := textParts.map TurnEvent.token
  match env.firstPass.failure with
  | some m => (TurnEvent.session sessionId :: evTok ++ [TurnEvent.error m], st1)
  | none =>
      if env.firstPass.toolCalls.isEmpty then
        (TurnEvent.session sessionId :: evTok ++ [TurnEvent.done],
         (getMessages (addMessage st1 sessionId (String.join textParts) false now)
            sessionId none now).2)
      else
        let execOut := executeToolCallsWithSSE env.firstPass.toolCalls env.tools
          (getSessionContext st1 sessionId).1
        let evHead := TurnEvent.session sessionId :: evTok
          ++ [TurnEvent.tool_executing (env.firstPass.toolCalls.map ToolCall.name)]
          ++ execOut.1
        if execOut.2.isEmpty then
          (evHead ++ [TurnEvent.done],
           (getMessages (addMessage st1 sessionId (String.join textParts) false now)
              sessionId none now).2)
        else
          match env.synthRetrieval with
          | Except.error m => (evHead ++ [TurnEvent.error m], st1)
          | Except.ok ragContext =>
              let _synthInput := synthesisMessages ragContext chatHistory message
                env.firstPass.toolCalls execOut.2
              let sParts := env.synth.chunks.filter (fun s => s != "")
              let evSyn := sParts.map TurnEvent.token
              match env.synth.failure with
              | some m => (evHead ++ evSyn ++ [TurnEvent.error m], st1)
              | none =>
                  (evHead ++ evSyn ++ [TurnEvent.done],
                   (getMessages (addMessage st1 sessionId (String.join sParts) false now)
                      sessionId none now).2)

/-! ### Frame lemmas threading `msgsOf` through the turn prologue -/

theorem getMessages_none_eq (st : Store) (sid : String) (now : Nat) :
    getMessages st sid none now =
      ((getOrCreateSession st sid now).2, (getOrCreateSession st sid now).1) := by
  rcases hq : getOrCreateSession st sid now with ⟨a, b⟩
  simp [getMessages, hq]

theorem msgsOf_getOrCreate (st : Store) (sid : String) (now : Nat) :
    msgsOf (getOrCreateSession st sid now).1 sid = msgsOf st sid := by
  have h2 := find_getOrCreateSession_self st sid now
  cases h : st.find sid with
  | none => rw [h] at h2; simp [msgsOf, h2, h]
  | some s => rw [h] at h2; simp [msgsOf, h2, h]

theorem msgsOf_getMessages (st : Store) (sid : String) (now : Nat) :
    msgsOf (getMessages st sid none now).2 sid = msgsOf st sid := by
  rw [getMessages_none_eq]
  exact msgsOf_getOrCreate st sid now

theorem maxWindow_getMessages (st : Store) (sid : String) (now : Nat) :
    (getMessages st sid none now).2.maxMessagesPerSession = st.maxMessagesPerSession := by
  rw [getMessages_none_eq]
  exact maxWindow_getOrCreateSession st sid now

theorem msgsOf_setSessionContext (st : Store) (sid : String) (ctx : ClientContext) (now : Nat) :
    msgsOf (setSessionContext st sid ctx now) sid = msgsOf st sid := by
  cases h : st.find sid with
  | none =>
      have h2 := find_getOrCreateSession_self st sid now
      rw [h] at h2
      unfold setSessionContext
      rw [h2]
      simp [msgsOf, find_setSession_self, h]
  | some s =>
      have h2 := find_getOrCreateSession_self st sid now
      rw [h] at h2
      unfold setSessionContext
      rw [h2]
      simp [msgsOf, find_setSession_self, h]

theorem msgsOf_storeAfterContext (st : Store) (sid : String) (context : Option ClientContext)
    (now : Nat) : msgsOf (storeAfterContext st sid context now) sid = msgsOf st sid := by
  cases context with
  | none => rfl
  | some c => exact msgsOf_setSessionContext st sid c now

theorem maxWindow_storeAfterContext (st : Store) (sid : String)
    (context : Option ClientContext) (now : Nat) :
    (storeAfterContext st sid context now).maxMessagesPerSession =
      st.maxMessagesPerSession := by
  cases context with
  | none => rfl
  | some c => exact maxWindow_setSessionContext st sid c now

theorem msgsOf_chatTurnPre (st : Store) (msg sid : String) (context : Option ClientContext)
    (now : Nat) :
    msgsOf (chatTurnPre st msg sid context now).2 sid =
      lastN st.maxMessagesPerSession (msgsOf st sid ++ [mkMessage msg true]) := by
  unfold chatTurnPre
  rw [msgsOf_addMessage, maxWindow_getMessages, maxWindow_storeAfterContext,
    msgsOf_getMessages, msgsOf_storeAfterContext]

theorem maxWindow_chatTurnPre (st : Store) (msg sid : String) (context : Option ClientContext)
    (now : Nat) :
    (chatTurnPre st msg sid context now).2.maxMessagesPerSession =
      st.maxMessagesPerSession := by
  unfold chatTurnPre
  rw [maxWindow_addMessage, maxWindow_getMessages, maxWindow_storeAfterContext]

theorem getLast?_lastN_concat (n : Nat) (hn : 0 < n) (ys : List α) (a : α) :
    (lastN n (ys ++ [a])).getLast? = some a := by
  unfold lastN
  have hk : (ys ++ [a]).length - n ≤ ys.length := by
    simp only [List.length_append, List.length_singleton]
    omega
  rw [List.drop_append_of_le_length hk, List.getLast?_concat]

/-- The store of every successful (`done`) branch: append the answer, then
the logging `getMessages` call of `chat.js` line 128. -/
theorem lastMessage_doneStore (st1 : Store) (sid : String) (saved : String) (now : Nat)
    (hW : 0 < st1.maxMessagesPerSession) :
    lastMessage (getMessages (addMessage st1 sid saved false now) sid none now).2 sid =
      some (mkMessage saved false) := by
  unfold lastMessage
  rw [msgsOf_getMessages, msgsOf_addMessage]
  exact getLast?_lastN_concat _ hW _ _

set_option maxHeartbeats 1000000 in
/-- Claim C8.  A turn whose first pass accumulates zero tool-call requests
emits only `session`, the first-pass `token` events (one per non-empty chunk,
in arrival order) and `done` — no `tool_executing`/`tool_result`/`tool_error`
— its outcome is independent of the synthesis-pass collaborators (no second
generation call and no synthesis retrieval is consulted), and the persisted
answer is the concatenation of the first-pass token events in emission
order. -/
theorem zero_toolcall_turn (st : Store) (tools : List Tool) (chunks : List String)
    (retr : Except String String) (syn : SynthesisOutcome) (msg sid : String)
    (ctx : Option ClientContext) (now : Nat) (hW : 0 < st.maxMessagesPerSession) :
    (chatTurn st ⟨tools, ⟨chunks, [], none⟩, retr, syn⟩ msg sid ctx now).1 =
      TurnEvent.session sid :: (chunks.filter (fun s => s != "")).map TurnEvent.token
        ++ [TurnEvent.done] ∧
    (∀ (retr' : Except String String) (syn' : SynthesisOutcome),
      chatTurn st ⟨tools, ⟨chunks, [], none⟩, retr', syn'⟩ msg sid ctx now =
        chatTurn st ⟨tools, ⟨chunks, [], none⟩, retr, syn⟩ msg sid ctx now) ∧
    lastMessage (chatTurn st ⟨tools, ⟨chunks, [], none⟩, retr, syn⟩ msg sid ctx now).2 sid =
      some (mkMessage (String.join (chunks.filter (fun s => s != ""))) false) := by
  refine ⟨rfl, fun _ _ => rfl, ?_⟩
  have h1 : (chatTurn st ⟨tools, ⟨chunks, [], none⟩, retr, syn⟩ msg sid ctx now).2 =
      (getMessages (addMessage (chatTurnPre st msg sid ctx now).2 sid
        (String.join (chunks.filter (fun s => s != ""))) false now) sid none now).2 := rfl
  rw [h1]
  refine lastMessage_doneStore _ sid _ now ?_
  rw [maxWindow_chatTurnPre]
  exact hW

theorem zero_toolcall_turn_witness :
    0 < (Store.mk [] 10).maxMessagesPerSession ∧
    ((chatTurn (Store.mk [] 10) ⟨[], ⟨["Key", "", " points"], [], none⟩, Except.ok "", ⟨[], none⟩⟩
        "q" "s" none 0).1 =
      TurnEvent.session "s" ::
        (["Key", "", " points"].filter (fun s => s != "")).map TurnEvent.token
        ++ [TurnEvent.done] ∧
    (∀ (retr' : Except String String) (syn' : SynthesisOutcome),
      chatTurn (Store.mk [] 10) ⟨[], ⟨["Key", "", " points"], [], none⟩, retr', syn'⟩
          "q" "s" none 0 =
        chatTurn (Store.mk [] 10) ⟨[], ⟨["Key", "", " points"], [], none⟩, Except.ok "",
          ⟨[], none⟩⟩ "q" "s" none 0) ∧
    lastMessage (chatTurn (Store.mk [] 10) ⟨[], ⟨["Key", "", " points"], [], none⟩,
        Except.ok "", ⟨[], none⟩⟩ "q" "s" none 0).2 "s" =
      some (mkMessage (String.join (["Key", "", " points"].filter (fun s => s != ""))) false)) :=
  ⟨by decide,
   zero_toolcall_turn (Store.mk [] 10) [] ["Key", "", " points"] (Except.ok "") ⟨[], none⟩
     "q" "s" none 0 (by decide)⟩

theorem exec_events_eq (cs : List ToolCall) (tools : List Tool) (cc : Option ClientContext) :
    (executeToolCallsWithSSE cs tools cc).1 = cs.map (toolCallEvent tools cc) := by
  rw [executeToolCallsWithSSE_eq]

theorem isErrorEvent_toolCallEvent (tools : List Tool) (cc : Option ClientContext)
    (tc : ToolCall) : (toolCallEvent tools cc tc).isErrorEvent = false := by
  unfold toolCallEvent
  cases hf : tools.find? (fun t => t.name == tc.name) with
  | none => rfl
  | some t =>
      cases hr : t.run tc.args cc with
      | ok r => simp [hr, TurnEvent.isErrorEvent]
      | error e => simp [hr, TurnEvent.isErrorEvent]

theorem countP_isError_token_map (l : List String) :
    ((l.map TurnEvent.token).countP TurnEvent.isErrorEvent) = 0 := by
  rw [List.countP_eq_zero]
  intro e he
  obtain ⟨c, -, rfl⟩ := List.mem_map.mp he
  simp [TurnEvent.isErrorEvent]

theorem countP_isError_exec (cs : List ToolCall) (tools : List Tool)
    (cc : Option ClientContext) :
    ((executeToolCallsWithSSE cs tools cc).1.countP TurnEvent.isErrorEvent) = 0 := by
  rw [exec_events_eq, List.countP_eq_zero]
  intro e he
  obtain ⟨c, -, rfl⟩ := List.mem_map.mp he
  simp [isErrorEvent_toolCallEvent]

theorem done_not_mem_token_map (l : List String) :
    TurnEvent.done ∉ l.map TurnEvent.token := by
  intro h
  obtain ⟨c, -, hc⟩ := List.mem_map.mp h
  cases hc

theorem done_not_mem_exec (cs : List ToolCall) (tools : List Tool)
    (cc : Option ClientContext) :
    TurnEvent.done ∉ (executeToolCallsWithSSE cs tools cc).1 := by
  rw [exec_events_eq]
  intro h
  obtain ⟨c, -, hc⟩ := List.mem_map.mp h
  have h2 := isToolish_toolCallEvent tools cc c
  rw [hc] at h2
  simp [TurnEvent.isToolish] at h2

set_option maxHeartbeats 1000000 in
/-- Claim C2 (as corrected).  Every turn that ends in the `ERRORED` state —
whether the first-pass retrieval/generation stream throws (first part), the
synthesis-time retrieval call fails (second part), or the synthesis
generation stream throws (third part) — emits exactly one `error` event and
no `done` (the stream closes on the error), and persists no assistant
answer: the final store is exactly the turn prologue store.  But, contrary
to the original claim, the turn is not free of persistence: the user
message (appended before the generation call) remains in the session
store. -/
theorem errored_turn (st : Store) (msg sid : String) (ctx : Option ClientContext) (now : Nat) :
    (∀ (tools : List Tool) (chunks : List String) (toolCalls : List ToolCall) (m : String)
        (retr : Except String String) (syn : SynthesisOutcome),
      (chatTurn st ⟨tools, ⟨chunks, toolCalls, some m⟩, retr, syn⟩ msg sid ctx now).1 =
        TurnEvent.session sid :: (chunks.filter (fun s => s != "")).map TurnEvent.token
          ++ [TurnEvent.error m] ∧
      ((chatTurn st ⟨tools, ⟨chunks, toolCalls, some m⟩, retr, syn⟩ msg sid ctx now).1.countP
          TurnEvent.isErrorEvent = 1) ∧
      TurnEvent.done ∉ (chatTurn st ⟨tools, ⟨chunks, toolCalls, some m⟩, retr, syn⟩
          msg sid ctx now).1 ∧
      (chatTurn st ⟨tools, ⟨chunks, toolCalls, some m⟩, retr, syn⟩ msg sid ctx now).2 =
        (chatTurnPre st msg sid ctx now).2 ∧
      msgsOf (chatTurn st ⟨tools, ⟨chunks, toolCalls, some m⟩, retr, syn⟩
          msg sid ctx now).2 sid =
        lastN st.maxMessagesPerSession (msgsOf st sid ++ [mkMessage msg true])) ∧
    (∀ (tools : List Tool) (chunks : List String) (tc : ToolCall) (tcs : List ToolCall)
        (m : String) (syn : SynthesisOutcome),
      (executeToolCallsWithSSE (tc :: tcs) tools
          (getSessionContext (chatTurnPre st msg sid ctx now).2 sid).1).2.isEmpty = false →
      (chatTurn st ⟨tools, ⟨chunks, tc :: tcs, none⟩, Except.error m, syn⟩ msg sid ctx now).1 =
        (TurnEvent.session sid :: (chunks.filter (fun s => s != "")).map TurnEvent.token)
          ++ [TurnEvent.tool_executing ((tc :: tcs).map ToolCall.name)]
          ++ (executeToolCallsWithSSE (tc :: tcs) tools
                (getSessionContext (chatTurnPre st msg sid ctx now).2 sid).1).1
          ++ [TurnEvent.error m] ∧
      ((chatTurn st ⟨tools, ⟨chunks, tc :: tcs, none⟩, Except.error m, syn⟩
          msg sid ctx now).1.countP TurnEvent.isErrorEvent = 1) ∧
      TurnEvent.done ∉ (chatTurn st ⟨tools, ⟨chunks, tc :: tcs, none⟩, Except.error m, syn⟩
          msg sid ctx now).1 ∧
      (chatTurn st ⟨tools, ⟨chunks, tc :: tcs, none⟩, Except.error m, syn⟩
          msg sid ctx now).2 = (chatTurnPre st msg sid ctx now).2 ∧
      msgsOf (chatTurn st ⟨tools, ⟨chunks, tc :: tcs, none⟩, Except.error m, syn⟩
          msg sid ctx now).2 sid =
        lastN st.maxMessagesPerSession (msgsOf st sid ++ [mkMessage msg true])) ∧
    (∀ (tools : List Tool) (chunks : List String) (tc : ToolCall) (tcs : List ToolCall)
        (ragCtx : String) (sChunks : List String) (m : String),
      (executeToolCallsWithSSE (tc :: tcs) tools
          (getSessionContext (chatTurnPre st msg sid ctx now).2 sid).1).2.isEmpty = false →
      (chatTurn st ⟨tools, ⟨chunks, tc :: tcs, none⟩, Except.ok ragCtx, ⟨sChunks, some m⟩⟩
          msg sid ctx now).1 =
        (TurnEvent.session sid :: (chunks.filter (fun s => s != "")).map TurnEvent.token)
          ++ [TurnEvent.tool_executing ((tc :: tcs).map ToolCall.name)]
          ++ (executeToolCallsWithSSE (tc :: tcs) tools
                (getSessionContext (chatTurnPre st msg sid ctx now).2 sid).1).1
          ++ (sChunks.filter (fun s => s != "")).map TurnEvent.token
          ++ [TurnEvent.error m] ∧
      ((chatTurn st ⟨tools, ⟨chunks, tc :: tcs, none⟩, Except.ok ragCtx, ⟨sChunks, some m⟩⟩
          msg sid ctx now).1.countP TurnEvent.isErrorEvent = 1) ∧
      TurnEvent.done ∉ (chatTurn st ⟨tools, ⟨chunks, tc :: tcs, none⟩, Except.ok ragCtx,
          ⟨sChunks, some m⟩⟩ msg sid ctx now).1 ∧
      (chatTurn st ⟨tools, ⟨chunks, tc :: tcs, none⟩, Except.ok ragCtx, ⟨sChunks, some m⟩⟩
          msg sid ctx now).2 = (chatTurnPre st msg sid ctx now).2 ∧
      msgsOf (chatTurn st ⟨tools, ⟨chunks, tc :: tcs, none⟩, Except.ok ragCtx,
          ⟨sChunks, some m⟩⟩ msg sid ctx now).2 sid =
        lastN st.maxMessagesPerSession (msgsOf st sid ++ [mkMessage msg true])) := by
  refine ⟨?_, ?_, ?_⟩
  · intro tools chunks toolCalls m retr syn
    have h1 : (chatTurn st ⟨tools, ⟨chunks, toolCalls, some m⟩, retr, syn⟩ msg sid ctx now).1 =
        TurnEvent.session sid :: (chunks.filter (fun s => s != "")).map TurnEvent.token
          ++ [TurnEvent.error m] := rfl
    refine ⟨h1, ?_, ?_, rfl, ?_⟩
    · rw [h1, List.countP_append, List.countP_cons, countP_isError_token_map]
      simp [TurnEvent.isErrorEvent, List.countP_singleton]
    · rw [h1]
      intro hmem
      rcases List.mem_append.mp hmem with h | h
      · rcases List.mem_cons.mp h with h2 | h2
        · cases h2
        · exact done_not_mem_token_map _ h2
      · cases List.mem_singleton.mp h
    · rw [show (chatTurn st ⟨tools, ⟨chunks, toolCalls, some m⟩, retr, syn⟩ msg sid ctx now).2 =
          (chatTurnPre st msg sid ctx now).2 from rfl]
      exact msgsOf_chatTurnPre st msg sid ctx now
  · intro tools chunks tc tcs m syn hres
    have hev : (chatTurn st ⟨tools, ⟨chunks, tc :: tcs, none⟩, Except.error m, syn⟩
        msg sid ctx now).1 =
        (TurnEvent.session sid :: (chunks.filter (fun s => s != "")).map TurnEvent.token)
          ++ [TurnEvent.tool_executing ((tc :: tcs).map ToolCall.name)]
          ++ (executeToolCallsWithSSE (tc :: tcs) tools
                (getSessionContext (chatTurnPre st msg sid ctx now).2 sid).1).1
          ++ [TurnEvent.error m] := by
      simp only [chatTurn, List.isEmpty_cons, Bool.false_eq_true, if_false, hres]
    have hst : (chatTurn st ⟨tools, ⟨chunks, tc :: tcs, none⟩, Except.error m, syn⟩
        msg sid ctx now).2 = (chatTurnPre st msg sid ctx now).2 := by
      simp only [chatTurn, List.isEmpty_cons, Bool.false_eq_true, if_false, hres]
    refine ⟨hev, ?_, ?_, hst, ?_⟩
    · rw [hev, List.countP_append, List.countP_append, List.countP_append, List.countP_cons,
        countP_isError_token_map, countP_isError_exec]
      simp [TurnEvent.isErrorEvent, List.countP_singleton]
    · rw [hev]
      intro hmem
      rcases List.mem_append.mp hmem with h | h
      · rcases List.mem_append.mp h with h2 | h2
        · rcases List.mem_append.mp h2 with h3 | h3
          · rcases List.mem_cons.mp h3 with h4 | h4
            · cases h4
            · exact done_not_mem_token_map _ h4
          · cases List.mem_singleton.mp h3
        · exact done_not_mem_exec _ _ _ h2
      · cases List.mem_singleton.mp h
    · rw [hst]
      exact msgsOf_chatTurnPre st msg sid ctx now
  · intro tools chunks tc tcs ragCtx sChunks m hres
    have hev : (chatTurn st ⟨tools, ⟨chunks, tc :: tcs, none⟩, Except.ok ragCtx,
        ⟨sChunks, some m⟩⟩ msg sid ctx now).1 =
        (TurnEvent.session sid :: (chunks.filter (fun s => s != "")).map TurnEvent.token)
          ++ [TurnEvent.tool_executing ((tc :: tcs).map ToolCall.name)]
          ++ (executeToolCallsWithSSE (tc :: tcs) tools
                (getSessionContext (chatTurnPre st msg sid ctx now).2 sid).1).1
          ++ (sChunks.filter (fun s => s != "")).map TurnEvent.token
          ++ [TurnEvent.error m] := by
      simp only [chatTurn, List.isEmpty_cons, Bool.false_eq_true, if_false, hres]
    have hst : (chatTurn st ⟨tools, ⟨chunks, tc :: tcs, none⟩, Except.ok ragCtx,
        ⟨sChunks, some m⟩⟩ msg sid ctx now).2 = (chatTurnPre st msg sid ctx now).2 := by
      simp only [chatTurn, List.isEmpty_cons, Bool.false_eq_true, if_false, hres]
    refine ⟨hev, ?_, ?_, hst, ?_⟩
    · rw [hev, List.countP_append, List.countP_append, List.countP_append, List.countP_append,
        List.countP_cons, countP_isError_token_map, countP_isError_token_map,
        countP_isError_exec]
      simp [TurnEvent.isErrorEvent, List.countP_singleton]
    · rw [hev]
      intro hmem
      rcases List.mem_append.mp hmem with h | h
      · rcases List.mem_append.mp h with h2 | h2
        · rcases List.mem_append.mp h2 with h3 | h3
          · rcases List.mem_append.mp h3 with h4 | h4
            · rcases List.mem_cons.mp h4 with h5 | h5
              · cases h5
              · exact done_not_mem_token_map _ h5
            · cases List.mem_singleton.mp h4
          · exact done_not_mem_exec _ _ _ h3
        · exact done_not_mem_token_map _ h2
      · cases List.mem_singleton.mp h
    · rw [hst]
      exact msgsOf_chatTurnPre st msg sid ctx now

set_option maxHeartbeats 1000000 in
theorem errored_turn_witness :
    (executeToolCallsWithSSE [⟨some "B", "echo", "z"⟩] [echoTool]
        (getSessionContext (chatTurnPre (Store.mk [] 10) "q" "s" none 0).2 "s").1).2.isEmpty =
      false ∧
    ((chatTurn (Store.mk [] 10) ⟨[], ⟨["hi"], [], some "boom"⟩, Except.ok "", ⟨[], none⟩⟩
        "q" "s" none 0).1 =
      TurnEvent.session "s" :: (["hi"].filter (fun s => s != "")).map TurnEvent.token
        ++ [TurnEvent.error "boom"] ∧
    ((chatTurn (Store.mk [] 10) ⟨[], ⟨["hi"], [], some "boom"⟩, Except.ok "", ⟨[], none⟩⟩
        "q" "s" none 0).1.countP TurnEvent.isErrorEvent = 1) ∧
    TurnEvent.done ∉ (chatTurn (Store.mk [] 10) ⟨[], ⟨["hi"], [], some "boom"⟩, Except.ok "",
        ⟨[], none⟩⟩ "q" "s" none 0).1 ∧
    (chatTurn (Store.mk [] 10) ⟨[], ⟨["hi"], [], some "boom"⟩, Except.ok "", ⟨[], none⟩⟩
        "q" "s" none 0).2 = (chatTurnPre (Store.mk [] 10) "q" "s" none 0).2 ∧
    msgsOf (chatTurn (Store.mk [] 10) ⟨[], ⟨["hi"], [], some "boom"⟩, Except.ok "", ⟨[], none⟩⟩
        "q" "s" none 0).2 "s" =
      lastN (Store.mk [] 10).maxMessagesPerSession
        (msgsOf (Store.mk [] 10) "s" ++ [mkMessage "q" true])) ∧
    ((chatTurn (Store.mk [] 10) ⟨[echoTool], ⟨["hi"], [⟨some "B", "echo", "z"⟩], none⟩,
        Except.error "rfail", ⟨[], none⟩⟩ "q" "s" none 0).1 =
      (TurnEvent.session "s" :: (["hi"].filter (fun s => s != "")).map TurnEvent.token)
        ++ [TurnEvent.tool_executing (([⟨some "B", "echo", "z"⟩] : List ToolCall).map
              ToolCall.name)]
        ++ (executeToolCallsWithSSE [⟨some "B", "echo", "z"⟩] [echoTool]
              (getSessionContext (chatTurnPre (Store.mk [] 10) "q" "s" none 0).2 "s").1).1
        ++ [TurnEvent.error "rfail"] ∧
    ((chatTurn (Store.mk [] 10) ⟨[echoTool], ⟨["hi"], [⟨some "B", "echo", "z"⟩], none⟩,
        Except.error "rfail", ⟨[], none⟩⟩ "q" "s" none 0).1.countP
        TurnEvent.isErrorEvent = 1) ∧
    TurnEvent.done ∉ (chatTurn (Store.mk [] 10) ⟨[echoTool], ⟨["hi"],
        [⟨some "B", "echo", "z"⟩], none⟩, Except.error "rfail", ⟨[], none⟩⟩
        "q" "s" none 0).1 ∧
    (chatTurn (Store.mk [] 10) ⟨[echoTool], ⟨["hi"], [⟨some "B", "echo", "z"⟩], none⟩,
        Except.error "rfail", ⟨[], none⟩⟩ "q" "s" none 0).2 =
      (chatTurnPre (Store.mk [] 10) "q" "s" none 0).2 ∧
    msgsOf (chatTurn (Store.mk [] 10) ⟨[echoTool], ⟨["hi"], [⟨some "B", "echo", "z"⟩], none⟩,
        Except.error "rfail", ⟨[], none⟩⟩ "q" "s" none 0).2 "s" =
      lastN (Store.mk [] 10).maxMessagesPerSession
        (msgsOf (Store.mk [] 10) "s" ++ [mkMessage "q" true])) ∧
    ((chatTurn (Store.mk [] 10) ⟨[echoTool], ⟨["hi"], [⟨some "B", "echo", "z"⟩], none⟩,
        Except.ok "ctx", ⟨["f"], some "sfail"⟩⟩ "q" "s" none 0).1 =
      (TurnEvent.session "s" :: (["hi"].filter (fun s => s != "")).map TurnEvent.token)
        ++ [TurnEvent.tool_executing (([⟨some "B", "echo", "z"⟩] : List ToolCall).map
              ToolCall.name)]
        ++ (executeToolCallsWithSSE [⟨some "B", "echo", "z"⟩] [echoTool]
              (getSessionContext (chatTurnPre (Store.mk [] 10) "q" "s" none 0).2 "s").1).1
        ++ (["f"].filter (fun s => s != "")).map TurnEvent.token
        ++ [TurnEvent.error "sfail"] ∧
    ((chatTurn (Store.mk [] 10) ⟨[echoTool], ⟨["hi"], [⟨some "B", "echo", "z"⟩], none⟩,
        Except.ok "ctx", ⟨["f"], some "sfail"⟩⟩ "q" "s" none 0).1.countP
        TurnEvent.isErrorEvent = 1) ∧
    TurnEvent.done ∉ (chatTurn (Store.mk [] 10) ⟨[echoTool], ⟨["hi"],
        [⟨some "B", "echo", "z"⟩], none⟩, Except.ok "ctx", ⟨["f"], some "sfail"⟩⟩
        "q" "s" none 0).1 ∧
    (chatTurn (Store.mk [] 10) ⟨[echoTool], ⟨["hi"], [⟨some "B", "echo", "z"⟩], none⟩,
        Except.ok "ctx", ⟨["f"], some "sfail"⟩⟩ "q" "s" none 0).2 =
      (chatTurnPre (Store.mk [] 10) "q" "s" none 0).2 ∧
    msgsOf (chatTurn (Store.mk [] 10) ⟨[echoTool], ⟨["hi"], [⟨some "B", "echo", "z"⟩], none⟩,
        Except.ok "ctx", ⟨["f"], some "sfail"⟩⟩ "q" "s" none 0).2 "s" =
      lastN (Store.mk [] 10).maxMessagesPerSession
        (msgsOf (Store.mk [] 10) "s" ++ [mkMessage "q" true])) :=
  ⟨rfl,
   (errored_turn (Store.mk [] 10) "q" "s" none 0).1 [] ["hi"] [] "boom" (Except.ok "")
     ⟨[], none⟩,
   (errored_turn (Store.mk [] 10) "q" "s" none 0).2.1 [echoTool] ["hi"]
     ⟨some "B", "echo", "z"⟩ [] "rfail" ⟨[], none⟩ rfl,
   (errored_turn (Store.mk [] 10) "q" "s" none 0).2.2 [echoTool] ["hi"]
     ⟨some "B", "echo", "z"⟩ [] "ctx" ["f"] "sfail" rfl⟩

/-- Claim C2, counterexample to the original wording: a turn from an empty
store that fails in generation before any text still leaves the session
holding the user message, so the `ERRORED` path does persist something. -/
theorem errored_turn_persists_user_message :
    (chatTurn (Store.mk [] 10) ⟨[], ⟨[], [], some "boom"⟩, Except.ok "", ⟨[], none⟩⟩
        "q" "s" none 7).1 = [TurnEvent.session "s", TurnEvent.error "boom"] ∧
    msgsOf (chatTurn (Store.mk [] 10) ⟨[], ⟨[], [], some "boom"⟩, Except.ok "", ⟨[], none⟩⟩
        "q" "s" none 7).2 "s" = [mkMessage "q" true] :=
  ⟨rfl, rfl⟩

set_option maxHeartbeats 1000000 in
/-- Claim C1 (as corrected).  A turn whose first pass accumulates at least
one complete tool-call request, and whose executor pushes at least one
result (i.e. at least one call succeeds), emits exactly one `tool_executing`
event — the event list splits as a prefix with no tool-phase event, the
single `tool_executing`, and a suffix with no further `tool_executing` —
before any `tool_result`/`tool_error`, and the persisted answer is the
concatenation of the synthesis-pass token events in emission order.
(Contrary to the original claim, when every call fails the executor pushes
no result, no synthesis pass runs, and the accumulated first-pass text is
persisted; see the counterexample.) -/
theorem toolcall_turn (st : Store) (tools : List Tool) (chunks : List String)
    (tc : ToolCall) (tcs : List ToolCall) (ragCtx : String) (sChunks : List String)
    (msg sid : String) (ctx : Option ClientContext) (now : Nat)
    (hW : 0 < st.maxMessagesPerSession)
    (hres : (executeToolCallsWithSSE (tc :: tcs) tools
        (getSessionContext (chatTurnPre st msg sid ctx now).2 sid).1).2.isEmpty = false) :
    (chatTurn st ⟨tools, ⟨chunks, tc :: tcs, none⟩, Except.ok ragCtx, ⟨sChunks, none⟩⟩
        msg sid ctx now).1 =
      (TurnEvent.session sid :: (chunks.filter (fun s => s != "")).map TurnEvent.token)
        ++ [TurnEvent.tool_executing ((tc :: tcs).map ToolCall.name)]
        ++ ((executeToolCallsWithSSE (tc :: tcs) tools
              (getSessionContext (chatTurnPre st msg sid ctx now).2 sid).1).1
            ++ (sChunks.filter (fun s => s != "")).map TurnEvent.token
            ++ [TurnEvent.done]) ∧
    (∀ e ∈ TurnEvent.session sid ::
        (chunks.filter (fun s => s != "")).map TurnEvent.token, e.isToolish = false) ∧
    (∀ e ∈ (executeToolCallsWithSSE (tc :: tcs) tools
          (getSessionContext (chatTurnPre st msg sid ctx now).2 sid).1).1
        ++ (sChunks.filter (fun s => s != "")).map TurnEvent.token
        ++ [TurnEvent.done],
      e.isToolExec = false) ∧
    lastMessage (chatTurn st ⟨tools, ⟨chunks, tc :: tcs, none⟩, Except.ok ragCtx,
        ⟨sChunks, none⟩⟩ msg sid ctx now).2 sid =
      some (mkMessage (String.join (sChunks.filter (fun s => s != ""))) false) := by
  refine ⟨?_, ?_, ?_, ?_⟩
  · simp only [chatTurn, List.isEmpty_cons, Bool.false_eq_true, if_false, hres]
    simp [List.append_assoc]
  · intro e he
    rcases List.mem_cons.mp he with rfl | hm
    · rfl
    · obtain ⟨c, -, rfl⟩ := List.mem_map.mp hm
      rfl
  · intro e he
    rw [executeToolCallsWithSSE_eq] at he
    simp only [List.append_assoc, List.mem_append, List.mem_map, List.mem_singleton] at he
    rcases he with ⟨c, -, rfl⟩ | ⟨c, -, rfl⟩ | rfl
    · exact isToolExec_toolCallEvent tools _ c
    · rfl
    · rfl
  · have h2 : (chatTurn st ⟨tools, ⟨chunks, tc :: tcs, none⟩, Except.ok ragCtx,
        ⟨sChunks, none⟩⟩ msg sid ctx now).2 =
        (getMessages (addMessage (chatTurnPre st msg sid ctx now).2 sid
          (String.join (sChunks.filter (fun s => s != ""))) false now) sid none now).2 := by
      simp only [chatTurn, List.isEmpty_cons, Bool.false_eq_true, if_false, hres]
    rw [h2]
    refine lastMessage_doneStore _ sid _ now ?_
    rw [maxWindow_chatTurnPre]
    exact hW

set_option maxHeartbeats 1000000 in
theorem toolcall_turn_witness :
    (0 < (Store.mk [] 10).maxMessagesPerSession ∧
     (executeToolCallsWithSSE [⟨some "B", "echo", "z"⟩] [echoTool]
        (getSessionContext (chatTurnPre (Store.mk [] 10) "q" "s" none 0).2 "s").1).2.isEmpty =
       false) ∧
    ((chatTurn (Store.mk [] 10) ⟨[echoTool], ⟨["hi"], [⟨some "B", "echo", "z"⟩], none⟩,
        Except.ok "", ⟨["fin", "al"], none⟩⟩ "q" "s" none 0).1 =
      (TurnEvent.session "s" :: (["hi"].filter (fun s => s != "")).map TurnEvent.token)
        ++ [TurnEvent.tool_executing (([⟨some "B", "echo", "z"⟩] : List ToolCall).map
              ToolCall.name)]
        ++ ((executeToolCallsWithSSE [⟨some "B", "echo", "z"⟩] [echoTool]
              (getSessionContext (chatTurnPre (Store.mk [] 10) "q" "s" none 0).2 "s").1).1
            ++ (["fin", "al"].filter (fun s => s != "")).map TurnEvent.token
            ++ [TurnEvent.done]) ∧
    (∀ e ∈ TurnEvent.session "s" ::
        (["hi"].filter (fun s => s != "")).map TurnEvent.token, e.isToolish = false) ∧
    (∀ e ∈ (executeToolCallsWithSSE [⟨some "B", "echo", "z"⟩] [echoTool]
          (getSessionContext (chatTurnPre (Store.mk [] 10) "q" "s" none 0).2 "s").1).1
        ++ (["fin", "al"].filter (fun s => s != "")).map TurnEvent.token
        ++ [TurnEvent.done],
      e.isToolExec = false) ∧
    lastMessage (chatTurn (Store.mk [] 10) ⟨[echoTool], ⟨["hi"], [⟨some "B", "echo", "z"⟩],
        none⟩, Except.ok "", ⟨["fin", "al"], none⟩⟩ "q" "s" none 0).2 "s" =
      some (mkMessage (String.join (["fin", "al"].filter (fun s => s != ""))) false)) :=
  ⟨⟨by decide, rfl⟩,
   toolcall_turn (Store.mk [] 10) [echoTool] ["hi"] ⟨some "B", "echo", "z"⟩ [] ""
     ["fin", "al"] "q" "s" none 0 (by decide) rfl⟩

set_option maxHeartbeats 1000000 in
/-- Claim C1, counterexample to the original wording: one tool call is
requested but fails (no tool named "ghost" is registered), so the executor
pushes no result, no synthesis pass runs, and the answer persisted for the
turn is "hi" — the accumulated first-pass text, which the claim says is
never persisted on a tool-call turn (the synthesis-pass token concatenation
here would be the empty string, as there are no synthesis token events). -/
theorem toolcall_turn_persists_first_pass :
    (chatTurn (Store.mk [] 10) ⟨[], ⟨["hi"], [⟨some "A", "ghost", ""⟩], none⟩,
        Except.ok "", ⟨[], none⟩⟩ "q" "s" none 0).1 =
      [TurnEvent.session "s", TurnEvent.token "hi",
       TurnEvent.tool_executing ["ghost"],
       TurnEvent.tool_error "ghost" ("Tool \x27" ++ "ghost" ++ "\x27 not found"),
       TurnEvent.done] ∧
    lastMessage (chatTurn (Store.mk [] 10) ⟨[], ⟨["hi"], [⟨some "A", "ghost", ""⟩], none⟩,
        Except.ok "", ⟨[], none⟩⟩ "q" "s" none 0).2 "s" =
      some (mkMessage "hi" false) :=
  ⟨rfl, rfl⟩

/-! ## Protocol bridge, stage 2 (`src/client/src/app/api/chat/route.ts`) -/

/-- The lowercase hex digit JS emits inside `\u00XX` escapes. -/
def hexDigitChar (n : Nat) : Char :=
  if n < 10 then Char.ofNat (48 + n) else Char.ofNat (87 + n)

/-- The `JSON.stringify` escaping of one character of a string: quote and
backslash are escaped, the control characters with short escapes use them,
every other control character becomes `\u00XX`, everything else is kept. -/
def jsonEscapeChar (c : Char) : List Char :=
  if c = '"' then ['\\', '"']
  else if c = '\\' then ['\\', '\\']
  else if c = '\x08' then ['\\', 'b']
  else if c = '\x09' then ['\\', 't']
  else if c = '\x0a' then ['\\', 'n']
  else if c = '\x0c' then ['\\', 'f']
  else if c = '\x0d' then ['\\', 'r']
  else if c.toNat < 32 then
    ['\\', 'u', '0', '0', hexDigitChar (c.toNat / 16), hexDigitChar (c.toNat % 16)]
  else [c]

/-- The `JSON.stringify` encoding of a string value. -/
def jsonQuote (s : String) : String :=
  ⟨'"' :: ((s.data.map jsonEscapeChar).flatten ++ ['"'])⟩

/-- The value of one hex digit (as emitted by `hexDigitChar`). -/
def hexVal? (c : Char) : Option Nat :=
  if 48 ≤ c.toNat ∧ c.toNat ≤ 57 then some (c.toNat - 48)
  else if 97 ≤ c.toNat ∧ c.toNat ≤ 102 then some (c.toNat - 87)
  else none

/-- Parse four hex digits (as emitted inside a `\u00XX` escape), returning
the value and the remaining input. -/
def parseHex4 (t : List Char) : Option (Nat × List Char) :=
  match t with
  | h1 :: h2 :: h3 :: h4 :: t2 =>
      (hexVal? h1).bind fun a =>
        (hexVal? h2).bind fun b =>
          (hexVal? h3).bind fun x =>
            (hexVal? h4).bind fun y => some ((((a * 16 + b) * 16 + x) * 16 + y), t2)
  | _ => none

/-- JSON string-body unescaping (the inverse a JSON consumer applies to the
escaped body between the quotes), with explicit fuel — one unit of fuel per
decoded character. -/
def unescapeAux : Nat → List Char → Option (List Char)
  | _, [] => some []
  | 0, _ => none
  | fuel + 1, c :: rest =>
      if c = '\\' then
        match rest with
        | [] => none
        | d :: t =>
            if d = '"' then (unescapeAux fuel t).map (fun l => '"' :: l)
            else if d = '\\' then (unescapeAux fuel t).map (fun l => '\\' :: l)
            else if d = 'b' then (unescapeAux fuel t).map (fun l => '\x08' :: l)
            else if d = 't' then (unescapeAux fuel t).map (fun l => '\x09' :: l)
            else if d = 'n' then (unescapeAux fuel t).map (fun l => '\x0a' :: l)
            else if d = 'f' then (unescapeAux fuel t).map (fun l => '\x0c' :: l)
            else if d = 'r' then (unescapeAux fuel t).map (fun l => '\x0d' :: l)
            else if d = 'u' then
              match parseHex4 t with
              | some (n, t2) => (unescapeAux fuel t2).map (fun l => Char.ofNat n :: l)
              | none => none
            else none
      else (unescapeAux fuel rest).map (fun l => c :: l)

/-- JSON string-body unescaping. -/
def unescapeChars (l : List Char) : Option (List Char) :=
  unescapeAux l.length l

/-- Decode a `JSON.stringify`-encoded string value. -/
def jsonUnquote (s : String) : Option String :=
  match s.data with
  | '"' :: rest =>
      if rest.getLast? = some '"' then (unescapeChars rest.dropLast).map String.mk
      else none
  | _ => none

theorem hexVal?_hexDigitChar : ∀ n : Nat, n < 16 → hexVal? (hexDigitChar n) = some n := by
  decide

theorem jsonEscapeChar_length_pos (c : Char) : 0 < (jsonEscapeChar c).length := by
  unfold jsonEscapeChar
  split
  · simp
  split
  · simp
  split
  · simp
  split
  · simp
  split
  · simp
  split
  · simp
  split
  · simp
  split
  · simp
  · simp

theorem unescapeAux_escape_step (f : Nat) (c : Char) (L : List Char) :
    unescapeAux (f + 1) (jsonEscapeChar c ++ L) = (unescapeAux f L).map (fun l => c :: l) := by
  by_cases h1 : c = '"'
  · subst h1; rfl
  by_cases h2 : c = '\\'
  · subst h2; rfl
  by_cases h3 : c = '\x08'
  · subst h3; rfl
  by_cases h4 : c = '\x09'
  · subst h4; rfl
  by_cases h5 : c = '\x0a'
  · subst h5; rfl
  by_cases h6 : c = '\x0c'
  · subst h6; rfl
  by_cases h7 : c = '\x0d'
  · subst h7; rfl
  by_cases h8 : c.toNat < 32
  · rw [jsonEscapeChar, if_neg h1, if_neg h2, if_neg h3, if_neg h4, if_neg h5, if_neg h6,
      if_neg h7, if_pos h8]
    have hv1 := hexVal?_hexDigitChar (c.toNat / 16) (by omega)
    have hv2 := hexVal?_hexDigitChar (c.toNat % 16) (by omega)
    have hred : unescapeAux (f + 1)
        ('\\' :: 'u' :: '0' :: '0' :: hexDigitChar (c.toNat / 16) ::
          hexDigitChar (c.toNat % 16) :: L) =
        match parseHex4 ('0' :: '0' :: hexDigitChar (c.toNat / 16) ::
            hexDigitChar (c.toNat % 16) :: L) with
        | some (n, t2) => (unescapeAux f t2).map (fun l => Char.ofNat n :: l)
        | none => none := rfl
    have hhex : parseHex4 ('0' :: '0' :: hexDigitChar (c.toNat / 16) ::
        hexDigitChar (c.toNat % 16) :: L) = some (c.toNat, L) := by
      simp only [parseHex4, hv1, hv2, show hexVal? ('0' : Char) = some 0 from rfl,
        Option.bind_eq_bind, Option.some_bind, Option.some.injEq, Prod.mk.injEq]
      constructor
      · omega
      · trivial
    show unescapeAux (f + 1) ('\\' :: 'u' :: '0' :: '0' :: hexDigitChar (c.toNat / 16) ::
        hexDigitChar (c.toNat % 16) :: L) = (unescapeAux f L).map (fun l => c :: l)
    rw [hred, hhex]
    show (unescapeAux f L).map (fun l => Char.ofNat c.toNat :: l) =
      (unescapeAux f L).map (fun l => c :: l)
    simp only [Char.ofNat_toNat]
  · rw [jsonEscapeChar, if_neg h1, if_neg h2, if_neg h3, if_neg h4, if_neg h5, if_neg h6,
      if_neg h7, if_neg h8]
    rw [List.cons_append, List.nil_append]
    show (if c = '\\' then _ else (unescapeAux f L).map (fun l => c :: l)) = _
    rw [if_neg h2]

theorem length_le_flatten_escape (l : List Char) :
    l.length ≤ ((l.map jsonEscapeChar).flatten).length := by
  induction l with
  | nil => simp
  | cons c t ih =>
      rw [List.map_cons, List.flatten_cons, List.length_append, List.length_cons]
      have := jsonEscapeChar_length_pos c
      omega

theorem unescapeAux_escape (l : List Char) : ∀ fuel : Nat, l.length ≤ fuel →
    unescapeAux fuel ((l.map jsonEscapeChar).flatten) = some l := by
  induction l with
  | nil => intro fuel _; cases fuel <;> rfl
  | cons c t ih =>
      intro fuel hf
      cases fuel with
      | zero => simp at hf
      | succ f =>
          rw [List.map_cons, List.flatten_cons, unescapeAux_escape_step f c]
          have ht : t.length ≤ f := by
            simp only [List.length_cons] at hf
            omega
          rw [ih f ht]
          rfl

theorem unescapeChars_escape (l : List Char) :
    unescapeChars ((l.map jsonEscapeChar).flatten) = some l :=
  unescapeAux_escape l _ (length_le_flatten_escape l)

theorem jsonUnquote_jsonQuote (s : String) : jsonUnquote (jsonQuote s) = some s := by
  obtain ⟨l⟩ := s
  show (if ((((l.map jsonEscapeChar).flatten) ++ ['"']).getLast? = some '"') then
      (unescapeChars ((((l.map jsonEscapeChar).flatten) ++ ['"']).dropLast)).map String.mk
    else none) = some ⟨l⟩
  rw [List.getLast?_concat, if_pos rfl, List.dropLast_concat, unescapeChars_escape l]
  rfl

/-- The stage-2 output parts: one per emitted line (`0:` text part, `2:`
annotation parts, `3:` error part, `d:` finish part). -/
inductive Part where
  | text (content : String)
  | annToolExecuting (tools : List String)
  | annToolResult (tool : String) (result : String)
  | annToolError (tool : String) (err : String)
  | annSession (sessionId : String)
  | err (message : String)
  | finish
deriving DecidableEq

/-- Is this the terminal finish part? -/
def Part.isFinish : Part → Bool
  | Part.finish => true
  | _ => false

/-- The text content of a text part. -/
def Part.textContent : Part → Option String
  | Part.text c => some c
  | _ => none

/-- The content of a `token` event. -/
def TurnEvent.tokenContent : TurnEvent → Option String
  | TurnEvent.token c => some c
  | _ => none

/-- The `JSON.stringify` encoding of an array of strings (`event.tools`). -/
def jsonStringArray (ts : List String) : String :=
  "[" ++ String.intercalate "," (ts.map jsonQuote) ++ "]"

/-- The exact line (including its trailing newline) the bridge enqueues for
one part — the `enqueue(...)` strings of `route.ts`. -/
def renderPart : Part → String
  | Part.text c => "0:" ++ jsonQuote c ++ "\n"
  | Part.annToolExecuting ts =>
      "2:[\x7b\"type\":\"tool_executing\",\"tools\":" ++ jsonStringArray ts ++ "\x7d]\n"
  | Part.annToolResult t r =>
      "2:[\x7b\"type\":\"tool_result\",\"tool\":" ++ jsonQuote t ++ ",\"result\":"
        ++ jsonQuote r ++ "\x7d]\n"
  | Part.annToolError t e =>
      "2:[\x7b\"type\":\"tool_error\",\"tool\":" ++ jsonQuote t ++ ",\"error\":"
        ++ jsonQuote e ++ "\x7d]\n"
  | Part.annSession sid =>
      "2:[\x7b\"type\":\"session\",\"sessionId\":" ++ jsonQuote sid ++ "\x7d]\n"
  | Part.err m => "3:" ++ jsonQuote m ++ "\n"
  | Part.finish =>
      "d:\x7b\"finishReason\":\"stop\",\"usage\":\x7b\"promptTokens\":0,\"completionTokens\":0\x7d\x7d\n"

/-- The per-event translation of the `switch` in the bridge (for every event but
`done`, which instead emits the finish line and closes the stream). -/
def evPart : TurnEvent → Part
  | TurnEvent.token c => Part.text c
  | TurnEvent.tool_executing ts => Part.annToolExecuting ts
  | TurnEvent.tool_result t r => Part.annToolResult t r
  | TurnEvent.tool_error t e => Part.annToolError t e
  | TurnEvent.session sid => Part.annSession sid
  | TurnEvent.error m => Part.err m
  | TurnEvent.done => Part.finish

/-- The reader loop of the bridge (`route.ts` lines 66–127) at the event level:
process the well-formed stage-1 events in order; a `done` event emits the
finish line and closes the output (any later input is never read); if the
upstream ends without `done`, a finish line is synthesized before closing. -/
def bridgeParts : List TurnEvent → List Part
  | [] => [Part.finish]
  | TurnEvent.done :: _ => [Part.finish]
  | TurnEvent.token c :: rest => Part.text c :: bridgeParts rest
  | TurnEvent.tool_executing ts :: rest => Part.annToolExecuting ts :: bridgeParts rest
  | TurnEvent.tool_result t r :: rest => Part.annToolResult t r :: bridgeParts rest
  | TurnEvent.tool_error t e :: rest => Part.annToolError t e :: bridgeParts rest
  | TurnEvent.session sid :: rest => Part.annSession sid :: bridgeParts rest
  | TurnEvent.error m :: rest => Part.err m :: bridgeParts rest

/-- The byte-level output of the bridge: one line per part. -/
def bridgeOutput (evs : List TurnEvent) : List String :=
  (bridgeParts evs).map renderPart

theorem bridgeParts_cons_ne (e : TurnEvent) (rest : List TurnEvent)
    (he : e ≠ TurnEvent.done) :
    bridgeParts (e :: rest) = evPart e :: bridgeParts rest := by
  cases e with
  | token c => rfl
  | tool_executing ts => rfl
  | tool_result t r => rfl
  | tool_error t e2 => rfl
  | session sid => rfl
  | error m => rfl
  | done => exact absurd rfl he

theorem bridgeParts_no_done (evs : List TurnEvent) (h : TurnEvent.done ∉ evs) :
    bridgeParts evs = evs.map evPart ++ [Part.finish] := by
  induction evs with
  | nil => rfl
  | cons e rest ih =>
      have he : e ≠ TurnEvent.done := fun hh => h (hh ▸ List.mem_cons_self e rest)
      rw [bridgeParts_cons_ne e rest he, ih (fun hm => h (List.mem_cons_of_mem e hm)),
        List.map_cons, List.cons_append]

theorem bridgeParts_body_done (body : List TurnEvent) (h : TurnEvent.done ∉ body) :
    bridgeParts (body ++ [TurnEvent.done]) = body.map evPart ++ [Part.finish] := by
  induction body with
  | nil => rfl
  | cons e rest ih =>
      have he : e ≠ TurnEvent.done := fun hh => h (hh ▸ List.mem_cons_self e rest)
      rw [List.cons_append, bridgeParts_cons_ne e _ he,
        ih (fun hm => h (List.mem_cons_of_mem e hm)), List.map_cons, List.cons_append]

theorem textContent_evPart (e : TurnEvent) :
    Part.textContent (evPart e) = TurnEvent.tokenContent e := by
  cases e <;> rfl

/-- Claim C6.  For a well-formed stage-1 event sequence ending in `done`
(and containing `done` only there), the bridge emits one part per preceding
event plus exactly one terminal finish part, after which the output is
closed (the finish part is last); the text parts are exactly the `token`
event contents, in order; each text part renders as a `0:` line carrying
the JSON-escaped content, and the escaping is lossless (decoding returns
the identical text). -/
theorem bridge_roundtrip (body : List TurnEvent) (hwf : TurnEvent.done ∉ body) :
    bridgeParts (body ++ [TurnEvent.done]) = body.map evPart ++ [Part.finish] ∧
    (bridgeParts (body ++ [TurnEvent.done])).countP Part.isFinish = 1 ∧
    (bridgeParts (body ++ [TurnEvent.done])).getLast? = some Part.finish ∧
    (bridgeParts (body ++ [TurnEvent.done])).filterMap Part.textContent =
      body.filterMap TurnEvent.tokenContent ∧
    (∀ c : String, renderPart (Part.text c) = "0:" ++ jsonQuote c ++ "\n") ∧
    (∀ c : String, jsonUnquote (jsonQuote c) = some c) := by
  have hmain := bridgeParts_body_done body hwf
  refine ⟨hmain, ?_, ?_, ?_, fun c => rfl, fun c => jsonUnquote_jsonQuote c⟩
  · rw [hmain, List.countP_append]
    have hz : (body.map evPart).countP Part.isFinish = 0 := by
      rw [List.countP_eq_zero]
      intro p hp
      obtain ⟨e, hin, rfl⟩ := List.mem_map.mp hp
      cases e <;> first | exact absurd hin hwf | simp [evPart, Part.isFinish]
    rw [hz]
    rfl
  · rw [hmain, List.getLast?_concat]
  · rw [hmain, List.filterMap_append]
    have h2 : List.filterMap Part.textContent [Part.finish] = [] := rfl
    rw [h2, List.append_nil, List.filterMap_map]
    have hc : Part.textContent ∘ evPart = TurnEvent.tokenContent := funext textContent_evPart
    rw [hc]

theorem bridge_roundtrip_witness :
    TurnEvent.done ∉ [TurnEvent.session "s", TurnEvent.token "hi"] ∧
    (bridgeParts ([TurnEvent.session "s", TurnEvent.token "hi"] ++ [TurnEvent.done]) =
        [TurnEvent.session "s", TurnEvent.token "hi"].map evPart ++ [Part.finish] ∧
    (bridgeParts ([TurnEvent.session "s", TurnEvent.token "hi"] ++
        [TurnEvent.done])).countP Part.isFinish = 1 ∧
    (bridgeParts ([TurnEvent.session "s", TurnEvent.token "hi"] ++
        [TurnEvent.done])).getLast? = some Part.finish ∧
    (bridgeParts ([TurnEvent.session "s", TurnEvent.token "hi"] ++
        [TurnEvent.done])).filterMap Part.textContent =
      [TurnEvent.session "s", TurnEvent.token "hi"].filterMap TurnEvent.tokenContent ∧
    (∀ c : String, renderPart (Part.text c) = "0:" ++ jsonQuote c ++ "\n") ∧
    (∀ c : String, jsonUnquote (jsonQuote c) = some c)) :=
  ⟨by decide, bridge_roundtrip [TurnEvent.session "s", TurnEvent.token "hi"] (by decide)⟩

/-- Claim C7.  If the upstream stage-1 stream ends without ever producing a
`done` event, the bridge still emits a terminal finish part — the last part
of its output — so the downstream client always receives a terminal
marker; at the byte level, the last emitted line is the finish line. -/
theorem bridge_synthesizes_finish (evs : List TurnEvent) (hwf : TurnEvent.done ∉ evs) :
    bridgeParts evs = evs.map evPart ++ [Part.finish] ∧
    (bridgeParts evs).getLast? = some Part.finish ∧
    (bridgeOutput evs).getLast? = some (renderPart Part.finish) := by
  have hmain := bridgeParts_no_done evs hwf
  refine ⟨hmain, ?_, ?_⟩
  · rw [hmain, List.getLast?_concat]
  · unfold bridgeOutput
    rw [hmain, List.map_append,
      show List.map renderPart [Part.finish] = [renderPart Part.finish] from rfl,
      List.getLast?_concat]

theorem bridge_synthesizes_finish_witness :
    TurnEvent.done ∉ [TurnEvent.token "x", TurnEvent.error "cut"] ∧
    (bridgeParts [TurnEvent.token "x", TurnEvent.error "cut"] =
        [TurnEvent.token "x", TurnEvent.error "cut"].map evPart ++ [Part.finish] ∧
    (bridgeParts [TurnEvent.token "x", TurnEvent.error "cut"]).getLast? = some Part.finish ∧
    (bridgeOutput [TurnEvent.token "x", TurnEvent.error "cut"]).getLast? =
      some (renderPart Part.finish)) :=
  ⟨by decide, bridge_synthesizes_finish [TurnEvent.token "x", TurnEvent.error "cut"] (by decide)⟩
